import Mathlib

/-!
# george HODLR solver front end (`src/george/solvers/hodlr.cpp`)

A shallow embedding of the two classes of `hodlr.cpp`, `SolverMatrix` and
`Solver`, and of the functions the file registers on `HODLRSolver`.

Conventions of the embedding.

* `double` is an arbitrary type `R` carrying the operations the code uses
  (`*`, `+`, `0`, `1`). Where the sign of a value matters the scalars are
  `double R`: NaN, or a number of a linear ordered ring `R`.
* A C++ exception is a value of `Failure`; a method that mutates `*this`
  returns the outcome together with the object after the call, also when the
  outcome is an exception.
* The collaborators declared in headers that are not part of this file
  (`george/hodlr.h`, `george/kernels.h`, `george/parser.h`) are the fields of
  `Externals`; every theorem quantifies over all of them.
* Heap allocation never fails for extents that the program has assigned.
* Members that a constructor leaves uninitialised hold arbitrary values
  supplied by the caller of the model. `size_` is the one such member whose
  value is used as an extent; a flag records whether it has been assigned, and
  building a matrix from the never-assigned `size_` is an abnormal outcome.
-/

namespace George

/-- Abnormal outcomes of a call. -/
inductive Failure where
  /-- `george::dimension_mismatch` -/
  | dimension_mismatch
  /-- `george::not_computed` -/
  | not_computed
  /-- `std::out_of_range` -/
  | out_of_range
  /-- any exception raised by a collaborator outside this file -/
  | external (code : Nat)
  /-- member access through a `NULL` pointer -/
  | null_dereference
  /-- a matrix is built with a never-assigned `int` as its extents: the
  behaviour is undefined, and a run typically ends in `std::bad_alloc` -/
  | indeterminate_extent
  deriving DecidableEq, Repr

/-- A `double` where its sign matters: NaN, or a number. -/
inductive double (R : Type) where
  | nan
  | num (v : R)
  deriving DecidableEq, Repr

/-- Multiplication of `double`s: NaN when an operand is NaN. -/
def double.mul {R : Type} [Mul R] : double R → double R → double R
  | .num u, .num v => .num (u * v)
  | _, _ => .nan

/-- Unary minus of a `double`: NaN stays NaN. -/
def double.neg {R : Type} [Neg R] : double R → double R
  | .num u => .num (-u)
  | .nan => .nan

/-- The comparison `a <= b` of `double`s: false when an operand is NaN. -/
def double.le {R : Type} [LE R] : double R → double R → Prop
  | .num u, .num v => u ≤ v
  | _, _ => False

instance double.instMul {R : Type} [Mul R] : Mul (double R) := ⟨double.mul⟩

instance double.instNeg {R : Type} [Neg R] : Neg (double R) := ⟨double.neg⟩

instance double.instZero {R : Type} [Zero R] : Zero (double R) := ⟨.num 0⟩

instance double.instLE {R : Type} [LE R] : LE (double R) := ⟨double.le⟩

/-- `RowMatrixXd`: a dynamically sized row-major matrix, stored row by row.
A default-constructed matrix is `0 × 0`. -/
structure RowMatrixXd (R : Type) where
  rows : Nat
  cols : Nat
  row_data : List (List R)
  deriving DecidableEq, Repr

/-- `t_.row(i).data()`: the coefficients of row `i`. -/
def RowMatrixXd.row {R : Type} (m : RowMatrixXd R) (i : Nat) : List R :=
  m.row_data.getD i []

/-- `Eigen::MatrixXd`: a dynamically sized matrix with its coefficients in
column-major order. An `Eigen::VectorXd` of length `n` is the `n × 1` case. -/
structure MatrixXd (R : Type) where
  rows : Nat
  cols : Nat
  data : List R
  deriving DecidableEq, Repr

/-- `Eigen::MatrixXd eye(n, n); eye.setIdentity();` for an `int n`.
Coefficient `p` of the column-major storage is entry `(p % n, p / n)`. It is
applied only to a `size_` that `compute` has assigned (see
`HODLRSolver.get_inverse`). -/
def MatrixXd.identity {R : Type} [Zero R] [One R] (n : Int) : MatrixXd R :=
  { rows := n.toNat
    cols := n.toNat
    data := (List.range (n.toNat * n.toNat)).map
      (fun p => if p % n.toNat = p / n.toNat then 1 else 0) }

/-- The column vector `x` viewed as an `n × 1` matrix. -/
def MatrixXd.of_vector {R : Type} (x : List R) : MatrixXd R :=
  { rows := x.length, cols := 1, data := x }

/-- `x.transpose() * alpha` for two vectors: the sum of the coefficientwise
products. -/
def inner_product {R : Type} [Zero R] [Add R] [Mul R] (x alpha : List R) : R :=
  (List.zipWith (fun a b => a * b) x alpha).sum

/-- The `unchecked<2>()` view of a `py::array_t<double>`: the two extents and
the unchecked coefficient accessor. -/
structure array_2d (R : Type) where
  shape0 : Nat
  shape1 : Nat
  coeff : Nat → Nat → R

/-- The `unchecked<1>()` view of a `py::array_t<double>`. -/
structure array_1d (R : Type) where
  shape0 : Nat
  coeff : Nat → R

/-- The array with every coefficient negated. -/
def array_1d.neg {R : Type} [Neg R] (yerr : array_1d R) : array_1d R :=
  { shape0 := yerr.shape0, coeff := fun i => - yerr.coeff i }

/-- State of a `std::mt19937`. Constructing the engine from a value and
`seed(value)` both set the whole state from `value mod 2^32` alone, so the
state is identified by that number. -/
structure mt19937 where
  seeded_with : Nat
  deriving DecidableEq, Repr

/-- `std::mt19937 random(value)` for a value drawn from `std::random_device`. -/
def mt19937.new (value : Nat) : mt19937 :=
  { seeded_with := value % 2 ^ 32 }

/-- `random.seed(value)` for an `int` value. -/
def mt19937.seed (_self : mt19937) (value : Int) : mt19937 :=
  { seeded_with := (value % 2 ^ 32).toNat }

/-- Conversion of a `size_t` to `int` (`size_ = n`). -/
def int_of_size_t (n : Nat) : Int :=
  (((n + 2 ^ 31) % 2 ^ 32 : Nat) : Int) - 2 ^ 31

/-- `class SolverMatrix`: the kernel and the stored coordinates. -/
structure SolverMatrix (K R : Type) where
  kernel_ : K
  t_ : RowMatrixXd R
  deriving DecidableEq, Repr

/-- The arguments of `new george::hodlr::Node<SolverMatrix>(...)`. -/
structure NodeArgs (K R : Type) where
  diag : List R
  matrix : SolverMatrix K R
  start : Nat
  size : Nat
  min_size : Int
  tol : R
  random : mt19937
  deriving DecidableEq, Repr

/-- The collaborators of `hodlr.cpp` that live in other files: `Spec` is a
`py::object` kernel specification, `K` a `george::kernels::Kernel`, `N` a
`george::hodlr::Node<SolverMatrix>`. -/
structure Externals (Spec K N R : Type) where
  /-- the null handle `py::object()` -/
  null_object : Spec
  /-- `george::parse_kernel_spec` -/
  parse_kernel_spec : Spec → Except Failure K
  /-- `Kernel::get_ndim` -/
  get_ndim : K → Nat
  /-- `Kernel::value` on two coordinate rows -/
  value : K → List R → List R → R
  /-- the constructor of `Node` -/
  Node_new : NodeArgs K R → N
  /-- `Node::compute`: the outcome and the node after the call -/
  Node_compute : N → Except Failure Unit × N
  /-- `Node::log_determinant` -/
  Node_log_determinant : N → R
  /-- `Node::solve`: the contents of the argument after the in-place solve -/
  Node_solve : N → MatrixXd R → Except Failure (MatrixXd R)

section Model

variable {Spec K N R : Type}

/-- `SolverMatrix (kernel)`. -/
def SolverMatrix.new (kernel : K) : SolverMatrix K R :=
  { kernel_ := kernel, t_ := { rows := 0, cols := 0, row_data := [] } }

/-- `SolverMatrix::set_input_coordinates`. -/
def SolverMatrix.set_input_coordinates (env : Externals Spec K N R)
    (self : SolverMatrix K R) (x : RowMatrixXd R) :
    Except Failure Unit × SolverMatrix K R :=
  if x.cols ≠ env.get_ndim self.kernel_ then
    (.error .dimension_mismatch, self)
  else
    (.ok (), { self with t_ := x })

/-- `SolverMatrix::get_value`. -/
def SolverMatrix.get_value (env : Externals Spec K N R)
    (self : SolverMatrix K R) (i j : Int) : Except Failure R :=
  if i < 0 ∨ i ≥ (self.t_.rows : Int) ∨ j < 0 ∨ j ≥ (self.t_.rows : Int) then
    .error .out_of_range
  else
    .ok (env.value self.kernel_ (self.t_.row i.toNat) (self.t_.row j.toNat))

/-- `class Solver`: its data members. -/
structure Solver (Spec K N R : Type) where
  kernel_spec_ : Spec
  log_det_ : R
  tol_ : R
  min_size_ : Int
  seed_ : Int
  size_ : Int
  computed_ : Int
  kernel_ : Option K
  matrix_ : Option (SolverMatrix K R)
  solver_ : Option N
  /-- not a member of the class: whether the assignment `size_ = n` of
  `compute` has been executed on this object -/
  size_assigned : Bool
  deriving DecidableEq, Repr

/-- `Solver ()`: the members it does not assign keep the arbitrary values of
`mem`; `kernel_spec_` is default-constructed. -/
def Solver.default (env : Externals Spec K N R) (mem : Solver Spec K N R) :
    Solver Spec K N R :=
  { mem with
    kernel_spec_ := env.null_object
    solver_ := none
    kernel_ := none
    matrix_ := none
    computed_ := 0
    size_assigned := false }

/-- `Solver (kernel_spec, min_size, tol, seed)`: `size_` and `log_det_` keep the
arbitrary values of `mem`. Construction fails when the parser raises. -/
def Solver.new (env : Externals Spec K N R) (mem : Solver Spec K N R)
    (kernel_spec : Spec) (min_size : Int) (tol : R) (seed : Int) :
    Except Failure (Solver Spec K N R) :=
  match env.parse_kernel_spec kernel_spec with
  | .error e => .error e
  | .ok kernel =>
    .ok { mem with
          kernel_spec_ := kernel_spec
          tol_ := tol
          min_size_ := min_size
          seed_ := seed
          solver_ := none
          kernel_ := some kernel
          matrix_ := some (SolverMatrix.new kernel)
          computed_ := 0
          size_assigned := false }

/-- `Solver::serialize`. -/
def Solver.serialize (self : Solver Spec K N R) : Spec × Int × R × Int :=
  (self.kernel_spec_, self.min_size_, self.tol_, self.seed_)

/-- `Solver::deserialize`. -/
def Solver.deserialize (env : Externals Spec K N R) (self : Solver Spec K N R)
    (kernel_spec : Spec) (min_size : Int) (tol : R) (seed : Int) :
    Except Failure Unit × Solver Spec K N R :=
  let self1 := { self with
    kernel_spec_ := kernel_spec
    min_size_ := min_size
    tol_ := tol
    seed_ := seed
    solver_ := none }
  match env.parse_kernel_spec kernel_spec with
  | .error e => (.error e, self1)
  | .ok kernel =>
    (.ok (), { self1 with
                kernel_ := some kernel
                matrix_ := some (SolverMatrix.new kernel)
                computed_ := 0 })

/-- `Solver::get_status`. -/
def Solver.get_status (_self : Solver Spec K N R) : Int := 0

/-- `Solver::get_computed`. -/
def Solver.get_computed (self : Solver Spec K N R) : Int := self.computed_

/-- `Solver::log_determinant`. -/
def Solver.log_determinant (self : Solver Spec K N R) : R := self.log_det_

/-- `Solver::size`. -/
def Solver.size (self : Solver Spec K N R) : Int := self.size_

/-- The value of `size_` is indeterminate: no `compute` has assigned it.
`compute` assigns `size_` on the path that sets `computed_ = 1`, so a solver
with `computed_ != 0` has an assigned `size_`; the flag keeps that information
once a later `compute` has reset `computed_`. -/
def Solver.size_indeterminate (self : Solver Spec K N R) : Bool :=
  !self.size_assigned && decide (self.computed_ = 0)

/-- The matrix `X` that `Solver::compute` fills from `x`. -/
def Solver.extract_coordinates (x : array_2d R) : RowMatrixXd R :=
  { rows := x.shape0
    cols := x.shape1
    row_data := (List.range x.shape0).map
      (fun i => (List.range x.shape1).map (fun j => x.coeff i j)) }

/-- The vector `diag` that `Solver::compute` fills from `yerr`, for `n` rows. -/
def Solver.extract_diag [Mul R] (n : Nat) (yerr : array_1d R) : List R :=
  (List.range n).map (fun i => yerr.coeff i * yerr.coeff i)

/-- `Solver::compute`; `r` is the value drawn from `std::random_device`. -/
def Solver.compute [Mul R] (env : Externals Spec K N R) (self : Solver Spec K N R)
    (r : Nat) (x : array_2d R) (yerr : array_1d R) :
    Except Failure Int × Solver Spec K N R :=
  let self0 := { self with computed_ := 0 }
  let random := (mt19937.new r).seed self0.seed_
  let n := x.shape0
  let X := Solver.extract_coordinates x
  let diag := Solver.extract_diag n yerr
  match self0.matrix_ with
  | none => (.error .null_dereference, self0)
  | some matrix =>
    match matrix.set_input_coordinates env X with
    | (.error e, matrix1) => (.error e, { self0 with matrix_ := some matrix1 })
    | (.ok _, matrix1) =>
      let node := env.Node_new
        { diag := diag, matrix := matrix1, start := 0, size := n
          min_size := self0.min_size_, tol := self0.tol_, random := random }
      match env.Node_compute node with
      | (.error e, node1) =>
        (.error e, { self0 with matrix_ := some matrix1, solver_ := some node1 })
      | (.ok _, node1) =>
        (.ok 0, { self0 with
                  matrix_ := some matrix1
                  solver_ := some node1
                  log_det_ := env.Node_log_determinant node1
                  computed_ := 1
                  size_ := int_of_size_t n
                  size_assigned := true })

/-- `Solver::apply_inverse`: the contents of `x` after the call. -/
def Solver.apply_inverse (env : Externals Spec K N R) (self : Solver Spec K N R)
    (x : MatrixXd R) : Except Failure (MatrixXd R) :=
  if self.computed_ = 0 then .error .not_computed
  else
    match self.solver_ with
    | none => .error .null_dereference
    | some node => env.Node_solve node x

/-- One call of `compute` in a history of calls. -/
structure ComputeCall (R : Type) where
  r : Nat
  x : array_2d R
  yerr : array_1d R

/-- The solver after a sequence of `compute` calls, whatever their outcomes. -/
def Solver.after_computes [Mul R] (env : Externals Spec K N R) :
    Solver Spec K N R → List (ComputeCall R) → Solver Spec K N R
  | self, [] => self
  | self, c :: cs => Solver.after_computes env (self.compute env c.r c.x c.yerr).2 cs

end Model

/-! ## The functions registered on `HODLRSolver` -/

namespace HODLRSolver

variable {Spec K N R : Type}

/-- The function bound as `apply_inverse`. -/
def apply_inverse (env : Externals Spec K N R) (self : Solver Spec K N R)
    (x : MatrixXd R) (in_place : Bool) : Except Failure (MatrixXd R) :=
  if in_place then
    self.apply_inverse env x
  else
    let alpha := x
    self.apply_inverse env alpha

/-- The function bound as `dot_solve`. -/
def dot_solve [Zero R] [Add R] [Mul R] (env : Externals Spec K N R)
    (self : Solver Spec K N R) (x : List R) : Except Failure R :=
  let alpha := MatrixXd.of_vector x
  match self.apply_inverse env alpha with
  | .error e => .error e
  | .ok alpha1 => .ok (inner_product x alpha1.data)

/-- The function bound as `get_inverse`. It reads `size_` and builds
`eye (n, n)` before `apply_inverse` tests `computed_`; with a never-assigned
`size_` that construction is the outcome of the call. -/
def get_inverse [Zero R] [One R] (env : Externals Spec K N R)
    (self : Solver Spec K N R) : Except Failure (MatrixXd R) :=
  if self.size_indeterminate then
    .error .indeterminate_extent
  else
    let n := self.size
    let eye : MatrixXd R := MatrixXd.identity n
    self.apply_inverse env eye

/-- The function bound as `__getstate__`. -/
def __getstate__ (self : Solver Spec K N R) : Spec × Int × R × Int :=
  self.serialize

/-- The function bound as `__setstate__`, on a tuple that has four items of
the expected types; `mem` supplies the values of the members that `Solver ()`
leaves uninitialised. -/
def __setstate__ (env : Externals Spec K N R) (_self mem : Solver Spec K N R)
    (t : Spec × Int × R × Int) : Except Failure Unit × Solver Spec K N R :=
  let self0 := Solver.default env mem
  self0.deserialize env t.1 t.2.1 t.2.2.1 t.2.2.2

end HODLRSolver

/-! ## A concrete instantiation

Kernel specifications and kernels are natural numbers (the kernel parsed from
`d > 0` has dimensionality `d`, specification `0` is rejected), scalars are
integers, and a tree node is the record of its constructor arguments with a
flag set by a successful `compute`. -/

/-- A small instantiation of the collaborators on which the definitions can be
evaluated: `Node::compute` raises when a diagonal entry is zero, and
`Node::solve` doubles every coefficient. -/
def demo : Externals Nat Nat (NodeArgs Nat Int × Bool) Int where
  null_object := 0
  parse_kernel_spec := fun s => if s = 0 then .error (.external 7) else .ok s
  get_ndim := fun k => k
  value := fun _ a b => inner_product a b
  Node_new := fun a => (a, false)
  Node_compute := fun nd =>
    if 0 ∈ nd.1.diag then (.error (.external 1), nd) else (.ok (), (nd.1, true))
  Node_log_determinant := fun nd => nd.1.diag.sum
  Node_solve := fun _ x => .ok { x with data := x.data.map (fun v => 2 * v) }

/-- Arbitrary initial contents of a solver object. -/
def demo_mem : Solver Nat Nat (NodeArgs Nat Int × Bool) Int where
  kernel_spec_ := 5
  log_det_ := -77
  tol_ := 3
  min_size_ := -4
  seed_ := 9
  size_ := -12
  computed_ := 1
  kernel_ := none
  matrix_ := none
  solver_ := none
  size_assigned := false

/-- Three points on a line, `3 × 1`. -/
def demo_x : array_2d Int where
  shape0 := 3
  shape1 := 1
  coeff := fun i _ => (i : Int)

/-- Two points in the plane, `2 × 2`. -/
def demo_x2 : array_2d Int where
  shape0 := 2
  shape1 := 2
  coeff := fun i j => (i : Int) + 10 * (j : Int)

/-- Noise values `1, 2, 3, ...`. -/
def demo_yerr : array_1d Int where
  shape0 := 3
  coeff := fun i => (i : Int) + 1

/-- Noise values `0, 1, 2, ...`: the first diagonal entry is zero. -/
def demo_yerr0 : array_1d Int where
  shape0 := 3
  coeff := fun i => (i : Int)

/-- The solver `Solver (1, 2, 3, 4)` built on `demo_mem`. -/
def demo_solver : Solver Nat Nat (NodeArgs Nat Int × Bool) Int :=
  { demo_mem with
    kernel_spec_ := 1
    tol_ := 3
    min_size_ := 2
    seed_ := 4
    solver_ := none
    kernel_ := some 1
    matrix_ := some (SolverMatrix.new 1)
    computed_ := 0
    size_assigned := false }

/-- The solver `demo_solver` after a successful `compute (demo_x, demo_yerr)`. -/
def demo_computed : Solver Nat Nat (NodeArgs Nat Int × Bool) Int :=
  (demo_solver.compute demo 123 demo_x demo_yerr).2

/-- The instantiation with `double` scalars over the integers: the kernel is
constant and the tree never raises. -/
def demo_double :
    Externals Nat Nat (NodeArgs Nat (double Int) × Bool) (double Int) where
  null_object := 0
  parse_kernel_spec := fun s => if s = 0 then .error (.external 7) else .ok s
  get_ndim := fun k => k
  value := fun _ _ _ => .num 1
  Node_new := fun a => (a, false)
  Node_compute := fun nd => (.ok (), (nd.1, true))
  Node_log_determinant := fun _ => .num 0
  Node_solve := fun _ x => .ok x

/-- The solver `Solver (1, 2, 3, 4)` over `double` scalars. -/
def demo_double_solver :
    Solver Nat Nat (NodeArgs Nat (double Int) × Bool) (double Int) where
  kernel_spec_ := 1
  log_det_ := .num 0
  tol_ := .num 3
  min_size_ := 2
  seed_ := 4
  size_ := 0
  computed_ := 0
  kernel_ := some 1
  matrix_ := some (SolverMatrix.new 1)
  solver_ := none
  size_assigned := false

/-- Three points on a line with `double` coordinates. -/
def demo_double_x : array_2d (double Int) where
  shape0 := 3
  shape1 := 1
  coeff := fun i _ => .num (i : Int)

/-- The noise `2, NaN, -3`. -/
def demo_yerr_nan : array_1d (double Int) where
  shape0 := 3
  coeff := fun i => if i = 0 then .num 2 else if i = 1 then .nan else .num (-3)

/-- The noise `2, 1, -3`, without NaN. -/
def demo_yerr_num : array_1d (double Int) where
  shape0 := 3
  coeff := fun i => if i = 0 then .num 2 else if i = 1 then .num 1 else .num (-3)

/-! ## Auxiliary facts -/

section Lemmas

variable {Spec K N R : Type}

theorem set_input_coordinates_cases (env : Externals Spec K N R)
    (m : SolverMatrix K R) (X : RowMatrixXd R) :
    (X.cols ≠ env.get_ndim m.kernel_ ∧
        m.set_input_coordinates env X = (.error .dimension_mismatch, m)) ∨
      (X.cols = env.get_ndim m.kernel_ ∧
        m.set_input_coordinates env X = (.ok (), { kernel_ := m.kernel_, t_ := X })) := by
  unfold SolverMatrix.set_input_coordinates
  by_cases h : X.cols = env.get_ndim m.kernel_
  · right
    simp [h]
  · left
    simp [h]

theorem compute_null_matrix [Mul R] (env : Externals Spec K N R) (s : Solver Spec K N R)
    (r : Nat) (x : array_2d R) (yerr : array_1d R) (hm : s.matrix_ = none) :
    s.compute env r x yerr = (.error .null_dereference, { s with computed_ := 0 }) := by
  simp [Solver.compute, hm]

theorem compute_dimension_mismatch [Mul R] (env : Externals Spec K N R)
    (s : Solver Spec K N R) (m : SolverMatrix K R)
    (r : Nat) (x : array_2d R) (yerr : array_1d R) (hm : s.matrix_ = some m)
    (hx : x.shape1 ≠ env.get_ndim m.kernel_) :
    s.compute env r x yerr = (.error .dimension_mismatch, { s with computed_ := 0 }) := by
  simp [Solver.compute, hm, SolverMatrix.set_input_coordinates, Solver.extract_coordinates, hx]

/-- The tree node that `compute` builds once the coordinates are accepted. -/
theorem compute_accepted [Mul R] (env : Externals Spec K N R)
    (s : Solver Spec K N R) (m : SolverMatrix K R)
    (r : Nat) (x : array_2d R) (yerr : array_1d R) (hm : s.matrix_ = some m)
    (hx : x.shape1 = env.get_ndim m.kernel_) :
    s.compute env r x yerr =
      match env.Node_compute (env.Node_new
          { diag := Solver.extract_diag x.shape0 yerr
            matrix := { kernel_ := m.kernel_, t_ := Solver.extract_coordinates x }
            start := 0
            size := x.shape0
            min_size := s.min_size_
            tol := s.tol_
            random := { seeded_with := (s.seed_ % 2 ^ 32).toNat } }) with
      | (.error e, node1) =>
        (.error e, { s with
          computed_ := 0
          matrix_ := some { kernel_ := m.kernel_, t_ := Solver.extract_coordinates x }
          solver_ := some node1 })
      | (.ok _, node1) =>
        (.ok 0, { s with
          matrix_ := some { kernel_ := m.kernel_, t_ := Solver.extract_coordinates x }
          solver_ := some node1
          log_det_ := env.Node_log_determinant node1
          computed_ := 1
          size_ := int_of_size_t x.shape0
          size_assigned := true }) := by
  simp only [Solver.compute, hm, SolverMatrix.set_input_coordinates, mt19937.seed]
  have hc : (Solver.extract_coordinates x).cols = env.get_ndim m.kernel_ := hx
  simp only [hc, ne_eq, not_true_eq_false, if_false]

theorem compute_outcome [Mul R] (env : Externals Spec K N R) (s : Solver Spec K N R)
    (r : Nat) (x : array_2d R) (yerr : array_1d R) :
    ((s.compute env r x yerr).1 = .ok 0 ∧ (s.compute env r x yerr).2.computed_ = 1) ∨
      ((∃ e, (s.compute env r x yerr).1 = .error e) ∧
        (s.compute env r x yerr).2.computed_ = 0) := by
  cases hm : s.matrix_ with
  | none =>
    right
    rw [compute_null_matrix env s r x yerr hm]
    exact ⟨⟨_, rfl⟩, rfl⟩
  | some m =>
    by_cases hx : x.shape1 = env.get_ndim m.kernel_
    · rw [compute_accepted env s m r x yerr hm hx]
      split
      · right
        exact ⟨⟨_, rfl⟩, rfl⟩
      · left
        exact ⟨rfl, rfl⟩
    · right
      rw [compute_dimension_mismatch env s m r x yerr hm hx]
      exact ⟨⟨_, rfl⟩, rfl⟩

theorem compute_keeps_configuration [Mul R] (env : Externals Spec K N R)
    (s : Solver Spec K N R) (r : Nat) (x : array_2d R) (yerr : array_1d R) :
    (s.compute env r x yerr).2.kernel_spec_ = s.kernel_spec_ ∧
      (s.compute env r x yerr).2.min_size_ = s.min_size_ ∧
      (s.compute env r x yerr).2.tol_ = s.tol_ ∧
      (s.compute env r x yerr).2.seed_ = s.seed_ := by
  cases hm : s.matrix_ with
  | none =>
    rw [compute_null_matrix env s r x yerr hm]
    exact ⟨rfl, rfl, rfl, rfl⟩
  | some m =>
    by_cases hx : x.shape1 = env.get_ndim m.kernel_
    · rw [compute_accepted env s m r x yerr hm hx]
      split <;> exact ⟨rfl, rfl, rfl, rfl⟩
    · rw [compute_dimension_mismatch env s m r x yerr hm hx]
      exact ⟨rfl, rfl, rfl, rfl⟩

theorem after_computes_serialize [Mul R] (env : Externals Spec K N R)
    (calls : List (ComputeCall R)) (s : Solver Spec K N R) :
    (Solver.after_computes env s calls).serialize = s.serialize := by
  induction calls generalizing s with
  | nil => rfl
  | cons c cs ih =>
    rw [Solver.after_computes, ih]
    have h := compute_keeps_configuration env s c.r c.x c.yerr
    unfold Solver.serialize
    rw [h.1, h.2.1, h.2.2.1, h.2.2.2]

theorem apply_inverse_uncomputed (env : Externals Spec K N R) (s : Solver Spec K N R)
    (X : MatrixXd R) (h : s.computed_ = 0) :
    s.apply_inverse env X = .error .not_computed := by
  unfold Solver.apply_inverse
  rw [if_pos h]

theorem apply_inverse_computed (env : Externals Spec K N R) (s : Solver Spec K N R)
    (node : N) (X : MatrixXd R) (h : s.computed_ ≠ 0) (hn : s.solver_ = some node) :
    s.apply_inverse env X = env.Node_solve node X := by
  unfold Solver.apply_inverse
  rw [if_neg h, hn]

theorem binding_apply_inverse_eq (env : Externals Spec K N R) (s : Solver Spec K N R)
    (X : MatrixXd R) (in_place : Bool) :
    HODLRSolver.apply_inverse env s X in_place = s.apply_inverse env X := by
  unfold HODLRSolver.apply_inverse
  cases in_place <;> rfl

theorem dot_solve_eq [Zero R] [Add R] [Mul R] (env : Externals Spec K N R)
    (s : Solver Spec K N R) (x : List R) :
    HODLRSolver.dot_solve env s x =
      (s.apply_inverse env (MatrixXd.of_vector x)).map
        (fun alpha => inner_product x alpha.data) := by
  unfold HODLRSolver.dot_solve
  simp only []
  cases h : s.apply_inverse env (MatrixXd.of_vector x) <;> rfl

theorem deserialize_cases (env : Externals Spec K N R) (s0 : Solver Spec K N R)
    (spec : Spec) (ms : Int) (tol : R) (seed : Int) :
    (s0.deserialize env spec ms tol seed).2.serialize = (spec, ms, tol, seed) ∧
      (s0.deserialize env spec ms tol seed).2.solver_ = none ∧
      (((∃ k, env.parse_kernel_spec spec = .ok k ∧
            (s0.deserialize env spec ms tol seed).2.matrix_ = some (SolverMatrix.new k) ∧
            (s0.deserialize env spec ms tol seed).2.kernel_ = some k) ∧
          (s0.deserialize env spec ms tol seed).1 = .ok () ∧
          (s0.deserialize env spec ms tol seed).2.computed_ = 0) ∨
        ((∃ e, env.parse_kernel_spec spec = .error e ∧
            (s0.deserialize env spec ms tol seed).1 = .error e) ∧
          (s0.deserialize env spec ms tol seed).2.computed_ = s0.computed_)) := by
  unfold Solver.deserialize
  cases h : env.parse_kernel_spec spec with
  | error e => exact ⟨rfl, rfl, Or.inr ⟨⟨e, rfl, rfl⟩, rfl⟩⟩
  | ok k => exact ⟨rfl, rfl, Or.inl ⟨⟨k, rfl, rfl, rfl⟩, rfl, rfl⟩⟩

theorem extract_diag_length [Mul R] (n : Nat) (yerr : array_1d R) :
    (Solver.extract_diag n yerr).length = n := by
  simp [Solver.extract_diag]

theorem extract_diag_entry [Mul R] (n : Nat) (yerr : array_1d R) (i : Nat) (hi : i < n) :
    (Solver.extract_diag n yerr)[i]? = some (yerr.coeff i * yerr.coeff i) := by
  simp [Solver.extract_diag, List.getElem?_map, List.getElem?_range hi]

theorem double_mul_self_nonneg [LinearOrderedRing R] (a : R) :
    (0 : double R) ≤ double.num a * double.num a := by
  show (0 : R) ≤ a * a
  exact mul_self_nonneg a

theorem double_nan_not_nonneg [LinearOrderedRing R] : ¬ ((0 : double R) ≤ double.nan) := by
  intro h
  exact h

theorem double_neg_mul_neg [LinearOrderedRing R] (a : double R) : -a * -a = a * a := by
  cases a with
  | nan => rfl
  | num v =>
    show double.num (-v * -v) = double.num (v * v)
    rw [neg_mul_neg]

theorem extract_diag_double_neg [LinearOrderedRing R] (n : Nat) (yerr : array_1d (double R)) :
    Solver.extract_diag n yerr.neg = Solver.extract_diag n yerr := by
  unfold Solver.extract_diag array_1d.neg
  apply List.map_congr_left
  intro i _
  exact double_neg_mul_neg (yerr.coeff i)

theorem extract_diag_double_nonneg [LinearOrderedRing R] (n : Nat)
    (yerr : array_1d (double R)) (hnan : ∀ i, i < n → yerr.coeff i ≠ double.nan)
    (d : double R) (hd : d ∈ Solver.extract_diag n yerr) : (0 : double R) ≤ d := by
  simp only [Solver.extract_diag, List.mem_map, List.mem_range] at hd
  obtain ⟨i, hi, rfl⟩ := hd
  cases hy : yerr.coeff i with
  | nan => exact absurd hy (hnan i hi)
  | num v => exact double_mul_self_nonneg v

theorem get_inverse_of_assigned [Zero R] [One R] (env : Externals Spec K N R)
    (s : Solver Spec K N R) (h : s.size_assigned = true ∨ s.computed_ ≠ 0) :
    HODLRSolver.get_inverse env s = s.apply_inverse env (MatrixXd.identity s.size) := by
  unfold HODLRSolver.get_inverse Solver.size_indeterminate
  rcases h with h | h
  · simp [h]
  · simp [h]

theorem get_inverse_of_indeterminate [Zero R] [One R] (env : Externals Spec K N R)
    (s : Solver Spec K N R) (h : s.size_assigned = false) (hc : s.computed_ = 0) :
    HODLRSolver.get_inverse env s = .error .indeterminate_extent := by
  unfold HODLRSolver.get_inverse Solver.size_indeterminate
  simp [h, hc]

/-- Every solver that `compute` leaves with `computed_ != 0` has `size_`
assigned, so `size_indeterminate` is `!size_assigned` on the solvers that the
constructors and methods produce. -/
theorem compute_assigns_size [Mul R] (env : Externals Spec K N R) (s : Solver Spec K N R)
    (r : Nat) (x : array_2d R) (yerr : array_1d R)
    (hc : (s.compute env r x yerr).2.computed_ ≠ 0) :
    (s.compute env r x yerr).2.size_assigned = true := by
  cases hm : s.matrix_ with
  | none =>
    rw [compute_null_matrix env s r x yerr hm] at hc
    exact absurd rfl hc
  | some m =>
    by_cases hx : x.shape1 = env.get_ndim m.kernel_
    · rw [compute_accepted env s m r x yerr hm hx] at hc ⊢
      split
      · rename_i h
        rw [h] at hc
        exact absurd rfl hc
      · rfl
    · rw [compute_dimension_mismatch env s m r x yerr hm hx] at hc
      exact absurd rfl hc

/-- The constructors leave `computed_ = 0`, and `deserialize` keeps the
property that a solver with `computed_ != 0` has `size_` assigned; with
`compute_assigns_size`, every solver that the program produces has it. -/
theorem size_assigned_of_computed (env : Externals Spec K N R)
    (mem s0 : Solver Spec K N R) (spec : Spec) (ms : Int) (tol : R) (seed : Int)
    (h0 : s0.computed_ ≠ 0 → s0.size_assigned = true) :
    (Solver.default env mem).computed_ = 0 ∧
      (∀ s, Solver.new env mem spec ms tol seed = .ok s → s.computed_ = 0) ∧
      ((s0.deserialize env spec ms tol seed).2.computed_ ≠ 0 →
        (s0.deserialize env spec ms tol seed).2.size_assigned = true) := by
  refine ⟨rfl, ?_, ?_⟩
  · intro s h
    unfold Solver.new at h
    cases hp : env.parse_kernel_spec spec with
    | error e =>
      rw [hp] at h
      cases h
    | ok k =>
      rw [hp] at h
      cases h
      rfl
  · unfold Solver.deserialize
    cases hp : env.parse_kernel_spec spec with
    | error e => exact h0
    | ok k =>
      intro hc
      exact absurd rfl hc

/-- What the guard of `apply_inverse` gives on a solver with `computed_ = 0`:
`apply_inverse` and `dot_solve` fail with `not_computed` whatever stands for
the tree's `solve`, and so does `get_inverse` once `size_` has been assigned. -/
theorem uncomputed_solver_guard [Zero R] [One R] [Add R] [Mul R]
    (env : Externals Spec K N R) (s : Solver Spec K N R) (hc : s.computed_ = 0)
    (X : MatrixXd R) (in_place : Bool) (v : List R) :
    s.apply_inverse env X = .error .not_computed ∧
      HODLRSolver.apply_inverse env s X in_place = .error .not_computed ∧
      HODLRSolver.dot_solve env s v = .error .not_computed ∧
      HODLRSolver.get_inverse env s =
        if s.size_assigned then .error .not_computed else .error .indeterminate_extent := by
  refine ⟨apply_inverse_uncomputed env s X hc, ?_, ?_, ?_⟩
  · rw [binding_apply_inverse_eq, apply_inverse_uncomputed env s X hc]
  · rw [dot_solve_eq, apply_inverse_uncomputed env s _ hc]
    rfl
  · cases ha : s.size_assigned with
    | true =>
      rw [get_inverse_of_assigned env s (Or.inl ha), apply_inverse_uncomputed env s _ hc]
      rfl
    | false =>
      rw [get_inverse_of_indeterminate env s ha hc]
      rfl

theorem identity_entry [Zero R] [One R] (n : Int) (i j : Nat)
    (hi : i < n.toNat) (hj : j < n.toNat) :
    (MatrixXd.identity n : MatrixXd R).data[j * n.toNat + i]? =
      some (if i = j then 1 else 0) := by
  have hlt : j * n.toNat + i < n.toNat * n.toNat := by
    calc j * n.toNat + i < j * n.toNat + n.toNat := by omega
      _ = (j + 1) * n.toNat := by ring
      _ ≤ n.toNat * n.toNat := Nat.mul_le_mul_right _ hj
  have hpos : 0 < n.toNat := by omega
  have hmod : (j * n.toNat + i) % n.toNat = i := by
    rw [Nat.add_comm, Nat.add_mul_mod_self_right, Nat.mod_eq_of_lt hi]
  have hdiv : (j * n.toNat + i) / n.toNat = j := by
    rw [Nat.add_comm, Nat.add_mul_div_right _ _ hpos, Nat.div_eq_of_lt hi, Nat.zero_add]
  simp only [MatrixXd.identity, List.getElem?_map, List.getElem?_range hlt, Option.map_some',
    hmod, hdiv]

end Lemmas

/-! ## `SolverMatrix` -/

section Claims

variable {Spec K N R : Type}

/-- C4: with `n` stored rows, `get_value (i, j)` fails, with `out_of_range` and
no other error, exactly when `i < 0`, `i ≥ n`, `j < 0` or `j ≥ n`; it returns a
value `v` exactly when both indices lie in `[0, n)` and `v` is the kernel's
value on the stored rows `i` and `j`; and with `n = 0` it fails for all
indices. -/
theorem get_value_contract (env : Externals Spec K N R) (m : SolverMatrix K R)
    (i j : Int) :
    (m.get_value env i j = .error .out_of_range ↔
      (i < 0 ∨ (m.t_.rows : Int) ≤ i ∨ j < 0 ∨ (m.t_.rows : Int) ≤ j)) ∧
    (∀ e, m.get_value env i j = .error e ↔
      (e = .out_of_range ∧
        (i < 0 ∨ (m.t_.rows : Int) ≤ i ∨ j < 0 ∨ (m.t_.rows : Int) ≤ j))) ∧
    (∀ v, m.get_value env i j = .ok v ↔
      ((0 ≤ i ∧ i < (m.t_.rows : Int) ∧ 0 ≤ j ∧ j < (m.t_.rows : Int)) ∧
        v = env.value m.kernel_ (m.t_.row i.toNat) (m.t_.row j.toNat))) ∧
    SolverMatrix.get_value env { m with t_ := { m.t_ with rows := 0 } } i j =
      .error .out_of_range := by
  refine ⟨?_, ?_, ?_, ?_⟩
  · unfold SolverMatrix.get_value
    by_cases h : i < 0 ∨ i ≥ (m.t_.rows : Int) ∨ j < 0 ∨ j ≥ (m.t_.rows : Int)
    · rw [if_pos h]
      exact ⟨fun _ => h, fun _ => rfl⟩
    · rw [if_neg h]
      exact ⟨fun he => (by cases he), fun hc => absurd hc h⟩
  · intro e
    unfold SolverMatrix.get_value
    by_cases h : i < 0 ∨ i ≥ (m.t_.rows : Int) ∨ j < 0 ∨ j ≥ (m.t_.rows : Int)
    · rw [if_pos h]
      constructor
      · intro he
        cases he
        exact ⟨rfl, h⟩
      · intro he
        rw [he.1]
    · rw [if_neg h]
      exact ⟨fun he => (by cases he), fun hc => absurd hc.2 h⟩
  · intro v
    unfold SolverMatrix.get_value
    by_cases h : i < 0 ∨ i ≥ (m.t_.rows : Int) ∨ j < 0 ∨ j ≥ (m.t_.rows : Int)
    · rw [if_pos h]
      constructor
      · intro he
        cases he
      · intro hv
        rcases h with h | h | h | h <;> omega
    · rw [if_neg h]
      constructor
      · intro hv
        cases hv
        refine ⟨?_, rfl⟩
        simp only [not_or, not_lt, ge_iff_le, not_le] at h
        exact ⟨h.1, h.2.1, h.2.2.1, h.2.2.2⟩
      · intro hv
        rw [hv.2]
  · unfold SolverMatrix.get_value
    have h : i < 0 ∨ i ≥ ((0 : Nat) : Int) ∨ j < 0 ∨ j ≥ ((0 : Nat) : Int) := by
      omega
    rw [if_pos h]

/-- Evaluation of `get_value` on the three stored points `0, 1, 2` of the
concrete solver: entry `(1, 2)` is the kernel value `1 * 2`, and the indices
`(1, 3)` and `(-1, 0)` are out of range. -/
theorem get_value_contract_witness :
    SolverMatrix.get_value demo
        ({ kernel_ := 1, t_ := Solver.extract_coordinates demo_x } : SolverMatrix Nat Int)
        1 2 = .ok 2 ∧
      (SolverMatrix.get_value demo
        ({ kernel_ := 1, t_ := Solver.extract_coordinates demo_x } : SolverMatrix Nat Int)
        1 3 = .error .out_of_range ↔
        ((1 : Int) < 0 ∨ ((3 : Nat) : Int) ≤ 1 ∨ (3 : Int) < 0 ∨ ((3 : Nat) : Int) ≤ 3)) :=
  ⟨rfl, (get_value_contract demo
    ({ kernel_ := 1, t_ := Solver.extract_coordinates demo_x } : SolverMatrix Nat Int)
    1 3).1⟩

/-- C3: `set_input_coordinates (X)` fails, with `dimension_mismatch` and
leaving the stored coordinates as they were, exactly when the column count of
`X` differs from the kernel's `get_ndim ()`, and otherwise stores `X`; and
`compute (x, yerr)` on a solver with coordinate store `m` fails with
`dimension_mismatch` for every `x` whose column count differs from the
kernel's dimensionality, changing nothing in the solver but `computed_`: the
tree pointer and the stored coordinates are the ones from before the call. -/
theorem set_input_coordinates_contract [Mul R] (env : Externals Spec K N R)
    (s : Solver Spec K N R) (m : SolverMatrix K R) (X : RowMatrixXd R)
    (r : Nat) (x : array_2d R) (yerr : array_1d R)
    (hm : s.matrix_ = some m) (hx : x.shape1 ≠ env.get_ndim m.kernel_) :
    ((m.set_input_coordinates env X).1 = .error .dimension_mismatch ↔
      X.cols ≠ env.get_ndim m.kernel_) ∧
    ((X.cols ≠ env.get_ndim m.kernel_ ∧
        m.set_input_coordinates env X = (.error .dimension_mismatch, m)) ∨
      (X.cols = env.get_ndim m.kernel_ ∧
        (m.set_input_coordinates env X).1 = .ok () ∧
        (m.set_input_coordinates env X).2.t_ = X ∧
        (m.set_input_coordinates env X).2.kernel_ = m.kernel_)) ∧
    s.compute env r x yerr = (.error .dimension_mismatch, { s with computed_ := 0 }) ∧
    (s.compute env r x yerr).2.solver_ = s.solver_ ∧
    (s.compute env r x yerr).2.matrix_ = some m := by
  have hc := compute_dimension_mismatch env s m r x yerr hm hx
  refine ⟨?_, ?_, hc, ?_, ?_⟩
  · rcases set_input_coordinates_cases env m X with h | h
    · simp [h.1, h.2]
    · simp [h.1, h.2]
  · rcases set_input_coordinates_cases env m X with h | h
    · exact Or.inl h
    · refine Or.inr ⟨h.1, ?_, ?_, ?_⟩ <;> rw [h.2]
  · rw [hc]
  · rw [hc]
    exact hm

/-- The computed concrete solver (kernel dimensionality 1, tree over three
points) rejects the `2 × 2` coordinates `demo_x2` and keeps its tree and its
stored coordinates. -/
theorem set_input_coordinates_contract_witness :
    demo_computed.compute demo 5 demo_x2 demo_yerr =
        (.error .dimension_mismatch, { demo_computed with computed_ := 0 }) ∧
      (demo_computed.compute demo 5 demo_x2 demo_yerr).2.solver_ = demo_computed.solver_ :=
  have h := set_input_coordinates_contract demo demo_computed
    { kernel_ := 1, t_ := Solver.extract_coordinates demo_x }
    (Solver.extract_coordinates demo_x2) 5 demo_x2 demo_yerr rfl (by decide)
  ⟨h.2.2.1, h.2.2.2.1⟩

/-! ## `Solver::compute` -/

/-- C2: every call of `compute` either returns normally (with 0) and leaves
`get_computed () = 1`, or raises and leaves `get_computed () = 0`, whatever
the state of the solver before the call (in particular after an earlier
successful `compute`); so `get_computed ()` is 1 after the call exactly when the
call returned normally, and an error of the root node's `compute` is such a
failure. -/
theorem compute_failure_uncomputed [Mul R] (env : Externals Spec K N R)
    (s : Solver Spec K N R) (r : Nat) (x : array_2d R) (yerr : array_1d R) :
    (((s.compute env r x yerr).1 = .ok 0 ∧ (s.compute env r x yerr).2.get_computed = 1) ∨
      ((∃ e, (s.compute env r x yerr).1 = .error e) ∧
        (s.compute env r x yerr).2.get_computed = 0)) ∧
    ((s.compute env r x yerr).2.get_computed = 1 ↔ (s.compute env r x yerr).1 = .ok 0) ∧
    ((s.compute env r x yerr).2.get_computed = 0 ↔
      ∃ e, (s.compute env r x yerr).1 = .error e) ∧
    (∀ m e node1, s.matrix_ = some m → x.shape1 = env.get_ndim m.kernel_ →
      env.Node_compute (env.Node_new
          { diag := Solver.extract_diag x.shape0 yerr
            matrix := { kernel_ := m.kernel_, t_ := Solver.extract_coordinates x }
            start := 0
            size := x.shape0
            min_size := s.min_size_
            tol := s.tol_
            random := { seeded_with := (s.seed_ % 2 ^ 32).toNat } }) = (.error e, node1) →
      (s.compute env r x yerr).1 = .error e ∧ (s.compute env r x yerr).2.get_computed = 0) := by
  have h := compute_outcome env s r x yerr
  unfold Solver.get_computed
  refine ⟨h, ?_, ?_, ?_⟩
  · rcases h with ⟨h1, h2⟩ | ⟨⟨e, h1⟩, h2⟩
    · simp [h1, h2]
    · simp [h1, h2]
  · rcases h with ⟨h1, h2⟩ | ⟨⟨e, h1⟩, h2⟩
    · simp [h1, h2]
    · simp [h1, h2]
  · intro m e node1 hm hx hn
    rw [compute_accepted env s m r x yerr hm hx, hn]
    exact ⟨rfl, rfl⟩

/-- On the computed concrete solver, a `compute` whose root node raises
(`demo_yerr0` has a zero entry) raises the same error and leaves
`get_computed () = 0`. -/
theorem compute_failure_uncomputed_witness :
    demo_computed.get_computed = 1 ∧
      (demo_computed.compute demo 5 demo_x demo_yerr0).1 = .error (.external 1) ∧
      ((demo_computed.compute demo 5 demo_x demo_yerr0).2.get_computed = 0 ↔
        ∃ e, (demo_computed.compute demo 5 demo_x demo_yerr0).1 = .error e) :=
  ⟨rfl, rfl, (compute_failure_uncomputed demo demo_computed 5 demo_x demo_yerr0).2.2.1⟩

/-! ## Use before a successful `compute` -/

/-- C1 (the code at the failing input): on the freshly constructed concrete
solver, `Solver::apply_inverse`, the bound `apply_inverse` and `dot_solve` fail
with `not_computed`, but `get_inverse ()` does not: it builds `eye (n, n)` from
the never-assigned `size_` before the guard of `apply_inverse` is reached, and
that construction is the outcome of the call. After a successful `compute`
followed by one that raised, `size_` is assigned and `get_inverse ()` fails
with `not_computed`. -/
theorem get_inverse_before_compute :
    Solver.new demo demo_mem 1 2 3 4 = .ok demo_solver ∧
      demo_solver.get_computed = 0 ∧
      demo_solver.apply_inverse demo (MatrixXd.of_vector [1, 2, 3]) = .error .not_computed ∧
      HODLRSolver.apply_inverse demo demo_solver (MatrixXd.of_vector [1, 2, 3]) false =
        .error .not_computed ∧
      HODLRSolver.dot_solve demo demo_solver [1, 2, 3] = .error .not_computed ∧
      HODLRSolver.get_inverse demo demo_solver = .error .indeterminate_extent ∧
      HODLRSolver.get_inverse demo demo_solver ≠ .error .not_computed ∧
      (demo_computed.compute demo 5 demo_x demo_yerr0).2.get_computed = 0 ∧
      HODLRSolver.get_inverse demo (demo_computed.compute demo 5 demo_x demo_yerr0).2 =
        .error .not_computed := by
  refine ⟨rfl, rfl, rfl, rfl, rfl, rfl, ?_, rfl, rfl⟩
  intro h
  cases h

/-- C5 (the code at the failing input): `log_determinant ()` has no guard. On
the concrete solver, after a successful `compute` (log-determinant 14) and a
second `compute` that raises `dimension_mismatch`, `get_computed ()` is 0 and
`log_determinant ()` still returns 14; on the freshly constructed solver it
returns the arbitrary initial contents of `log_det_`. -/
theorem log_determinant_unguarded :
    demo_computed.get_computed = 1 ∧
      demo_computed.log_determinant = 14 ∧
      (demo_computed.compute demo 5 demo_x2 demo_yerr).1 = .error .dimension_mismatch ∧
      (demo_computed.compute demo 5 demo_x2 demo_yerr).2.get_computed = 0 ∧
      (demo_computed.compute demo 5 demo_x2 demo_yerr).2.log_determinant = 14 ∧
      Solver.new demo demo_mem 1 2 3 4 = .ok demo_solver ∧
      demo_solver.get_computed = 0 ∧
      demo_solver.log_determinant = demo_mem.log_det_ :=
  ⟨rfl, rfl, rfl, rfl, rfl, rfl, rfl, rfl⟩

/-! ## Solving on a computed solver -/

/-- C6 (counterexample): the concrete solver is computed with current size 3;
`apply_inverse` on a matrix with 2 rows and `dot_solve` on a vector with 2
entries do not fail with `dimension_mismatch`: the argument reaches the tree's
`solve` and the call returns what that leaves. -/
theorem solve_row_count_unchecked :
    demo_computed.get_computed = 1 ∧
      demo_computed.size = 3 ∧
      (MatrixXd.of_vector [1, 1] : MatrixXd Int).rows = 2 ∧
      HODLRSolver.apply_inverse demo demo_computed (MatrixXd.of_vector [1, 1]) false =
        .ok (MatrixXd.of_vector [2, 2]) ∧
      HODLRSolver.apply_inverse demo demo_computed (MatrixXd.of_vector [1, 1]) false ≠
        .error .dimension_mismatch ∧
      HODLRSolver.dot_solve demo demo_computed [1, 1] = .ok 4 ∧
      HODLRSolver.dot_solve demo demo_computed [1, 1] ≠ .error .dimension_mismatch := by
  refine ⟨rfl, rfl, rfl, rfl, ?_, rfl, ?_⟩
  · intro h
    cases h
  · intro h
    cases h

/-- C6 (amended): on a computed solver with tree `node`, `apply_inverse (X)`
and `dot_solve (x)` make no check of the row count: for every `X` and `x` the
argument is handed to the tree's `solve`, and the call returns what `solve`
leaves in it (for `dot_solve`, its inner product with `x`) or fails with the
error `solve` raises. -/
theorem solve_delegates_to_tree [Zero R] [Add R] [Mul R]
    (env : Externals Spec K N R) (s : Solver Spec K N R) (node : N)
    (hc : s.get_computed ≠ 0) (hn : s.solver_ = some node)
    (X : MatrixXd R) (in_place : Bool) (x : List R) :
    s.apply_inverse env X = env.Node_solve node X ∧
      HODLRSolver.apply_inverse env s X in_place = env.Node_solve node X ∧
      HODLRSolver.dot_solve env s x =
        (env.Node_solve node (MatrixXd.of_vector x)).map
          (fun alpha => inner_product x alpha.data) := by
  refine ⟨apply_inverse_computed env s node X hc hn, ?_, ?_⟩
  · rw [binding_apply_inverse_eq, apply_inverse_computed env s node X hc hn]
  · rw [dot_solve_eq, apply_inverse_computed env s node _ hc hn]

/-- On the computed concrete solver, a matrix with 2 rows goes to the tree's
`solve`. -/
theorem solve_delegates_to_tree_witness :
    HODLRSolver.apply_inverse demo demo_computed (MatrixXd.of_vector [1, 1]) true =
      demo.Node_solve
        ({ diag := [1, 4, 9]
           matrix := { kernel_ := 1, t_ := Solver.extract_coordinates demo_x }
           start := 0
           size := 3
           min_size := 2
           tol := 3
           random := { seeded_with := 4 } }, true)
        (MatrixXd.of_vector [1, 1]) :=
  (solve_delegates_to_tree demo demo_computed _ (by decide) rfl
    (MatrixXd.of_vector [1, 1]) true [1, 1]).2.1

/-- C9: on a computed solver with tree `node`, `dot_solve (x)` hands the copy
`alpha` of `x` (an `n × 1` matrix with the coefficients of `x`) to
`apply_inverse`, i.e. to the tree's `solve`, and returns the inner product of
the caller's `x` with what the call leaves in `alpha`; `get_inverse ()` returns
what `apply_inverse` leaves in the `n × n` identity matrix, `n = size ()`. The
inner product is the sum of the coefficientwise products, and entry `(i, j)` of
the identity is 1 for `i = j` and 0 otherwise. -/
theorem dot_solve_get_inverse_contract [Zero R] [One R] [Add R] [Mul R]
    (env : Externals Spec K N R) (s : Solver Spec K N R) (node : N)
    (hc : s.get_computed ≠ 0) (hn : s.solver_ = some node) (x : List R) :
    HODLRSolver.dot_solve env s x =
        (s.apply_inverse env (MatrixXd.of_vector x)).map
          (fun alpha => inner_product x alpha.data) ∧
      s.apply_inverse env (MatrixXd.of_vector x) =
        env.Node_solve node (MatrixXd.of_vector x) ∧
      ((MatrixXd.of_vector x).data = x ∧ (MatrixXd.of_vector x).rows = x.length ∧
        (MatrixXd.of_vector x).cols = 1) ∧
      (inner_product ([] : List R) [] = 0 ∧
        ∀ (a b : R) (u w : List R),
          inner_product (a :: u) (b :: w) = a * b + inner_product u w) ∧
      HODLRSolver.get_inverse env s = s.apply_inverse env (MatrixXd.identity s.size) ∧
      HODLRSolver.get_inverse env s = env.Node_solve node (MatrixXd.identity s.size) ∧
      ((MatrixXd.identity s.size : MatrixXd R).rows = s.size.toNat ∧
        (MatrixXd.identity s.size : MatrixXd R).cols = s.size.toNat ∧
        (MatrixXd.identity s.size : MatrixXd R).data.length = s.size.toNat * s.size.toNat ∧
        ∀ i j, i < s.size.toNat → j < s.size.toNat →
          (MatrixXd.identity s.size : MatrixXd R).data[j * s.size.toNat + i]? =
            some (if i = j then 1 else 0)) := by
  refine ⟨dot_solve_eq env s x, apply_inverse_computed env s node _ hc hn,
    ⟨rfl, rfl, rfl⟩, ⟨rfl, fun _ _ _ _ => rfl⟩,
    get_inverse_of_assigned env s (Or.inr hc), ?_, rfl, rfl, ?_, ?_⟩
  · rw [get_inverse_of_assigned env s (Or.inr hc)]
    exact apply_inverse_computed env s node _ hc hn
  · simp [MatrixXd.identity]
  · intro i j hi hj
    exact identity_entry s.size i j hi hj

/-- On the computed concrete solver, whose tree's `solve` doubles every
coefficient: `dot_solve ([1, 2, 3])` is `1*2 + 2*4 + 3*6 = 28` and
`get_inverse ()` is twice the `3 × 3` identity. -/
theorem dot_solve_get_inverse_contract_witness :
    HODLRSolver.dot_solve demo demo_computed [1, 2, 3] = .ok 28 ∧
      HODLRSolver.get_inverse demo demo_computed =
        .ok { rows := 3, cols := 3, data := [2, 0, 0, 0, 2, 0, 0, 0, 2] } ∧
      HODLRSolver.get_inverse demo demo_computed =
        demo_computed.apply_inverse demo (MatrixXd.identity demo_computed.size) :=
  ⟨rfl, rfl, (dot_solve_get_inverse_contract demo demo_computed _ (by decide) rfl
    [1, 2, 3]).2.2.2.2.1⟩

/-! ## Serialization -/

/-- C7: a solver constructed with `(kernel_spec, min_size, tol, seed)`
serializes to exactly that quadruple after any sequence of `compute` calls;
`deserialize (q)` and `__setstate__ (q)` leave a solver that serializes to `q`
and has no tree; a solver on which `deserialize` returned normally, and every
solver left by `__setstate__`, is uncomputed, so `apply_inverse` fails with
`not_computed`; and `__setstate__` applied to the `__getstate__` of the
constructed solver, computed or not, succeeds and gives an uncomputed solver
without tree that serializes to the same quadruple. -/
theorem serialize_roundtrip [Mul R] (env : Externals Spec K N R)
    (mem : Solver Spec K N R) (spec : Spec) (ms : Int) (tol : R) (seed : Int)
    (s : Solver Spec K N R) (h : Solver.new env mem spec ms tol seed = .ok s)
    (calls : List (ComputeCall R)) (s0 mem0 : Solver Spec K N R)
    (q : Spec × Int × R × Int) (X : MatrixXd R) :
    (Solver.after_computes env s calls).serialize = (spec, ms, tol, seed) ∧
      HODLRSolver.__getstate__ (Solver.after_computes env s calls) = (spec, ms, tol, seed) ∧
      (s0.deserialize env q.1 q.2.1 q.2.2.1 q.2.2.2).2.serialize = q ∧
      (s0.deserialize env q.1 q.2.1 q.2.2.1 q.2.2.2).2.solver_ = none ∧
      ((s0.deserialize env q.1 q.2.1 q.2.2.1 q.2.2.2).1 = .ok () →
        (s0.deserialize env q.1 q.2.1 q.2.2.1 q.2.2.2).2.get_computed = 0 ∧
        (s0.deserialize env q.1 q.2.1 q.2.2.1 q.2.2.2).2.apply_inverse env X =
          .error .not_computed) ∧
      ((HODLRSolver.__setstate__ env s0 mem0 q).2.serialize = q ∧
        (HODLRSolver.__setstate__ env s0 mem0 q).2.solver_ = none ∧
        (HODLRSolver.__setstate__ env s0 mem0 q).2.get_computed = 0 ∧
        (HODLRSolver.__setstate__ env s0 mem0 q).2.apply_inverse env X =
          .error .not_computed) ∧
      ((HODLRSolver.__setstate__ env s0 mem0
          (HODLRSolver.__getstate__ (Solver.after_computes env s calls))).1 = .ok () ∧
        (HODLRSolver.__setstate__ env s0 mem0
          (HODLRSolver.__getstate__ (Solver.after_computes env s calls))).2.serialize =
            (spec, ms, tol, seed) ∧
        (HODLRSolver.__setstate__ env s0 mem0
          (HODLRSolver.__getstate__ (Solver.after_computes env s calls))).2.get_computed = 0 ∧
        (HODLRSolver.__setstate__ env s0 mem0
          (HODLRSolver.__getstate__ (Solver.after_computes env s calls))).2.solver_ = none) := by
  -- what the constructor did
  have hnew : (∃ k, env.parse_kernel_spec spec = .ok k) ∧ s.serialize = (spec, ms, tol, seed) := by
    unfold Solver.new at h
    cases hp : env.parse_kernel_spec spec with
    | error e =>
      rw [hp] at h
      cases h
    | ok k =>
      rw [hp] at h
      cases h
      exact ⟨⟨k, rfl⟩, rfl⟩
  have hser : (Solver.after_computes env s calls).serialize = (spec, ms, tol, seed) := by
    rw [after_computes_serialize, hnew.2]
  -- what `__setstate__` leaves, for every quadruple
  have hset : ∀ t : Spec × Int × R × Int,
      (HODLRSolver.__setstate__ env s0 mem0 t).2.serialize = t ∧
        (HODLRSolver.__setstate__ env s0 mem0 t).2.solver_ = none ∧
        (HODLRSolver.__setstate__ env s0 mem0 t).2.computed_ = 0 ∧
        ((∃ k, env.parse_kernel_spec t.1 = .ok k) →
          (HODLRSolver.__setstate__ env s0 mem0 t).1 = .ok ()) := by
    intro t
    unfold HODLRSolver.__setstate__
    simp only []
    have hd := deserialize_cases env (Solver.default env mem0) t.1 t.2.1 t.2.2.1 t.2.2.2
    refine ⟨hd.1, hd.2.1, ?_, ?_⟩
    · rcases hd.2.2 with ⟨_, _, h0⟩ | ⟨_, h0⟩
      · exact h0
      · rw [h0]
        rfl
    · rintro ⟨k, hk⟩
      rcases hd.2.2 with ⟨_, h1, _⟩ | ⟨⟨e, he, _⟩, _⟩
      · exact h1
      · rw [hk] at he
        cases he
  have hd := deserialize_cases env s0 q.1 q.2.1 q.2.2.1 q.2.2.2
  refine ⟨hser, hser, hd.1, hd.2.1, ?_, ⟨(hset q).1, (hset q).2.1, (hset q).2.2.1, ?_⟩, ?_⟩
  · intro hok
    have h0 : (s0.deserialize env q.1 q.2.1 q.2.2.1 q.2.2.2).2.computed_ = 0 := by
      rcases hd.2.2 with ⟨_, _, h0⟩ | ⟨⟨e, _, he⟩, _⟩
      · exact h0
      · rw [hok] at he
        cases he
    exact ⟨h0, apply_inverse_uncomputed env _ X h0⟩
  · exact apply_inverse_uncomputed env _ X (hset q).2.2.1
  · have hg : HODLRSolver.__getstate__ (Solver.after_computes env s calls) =
        (spec, ms, tol, seed) := hser
    rw [hg]
    have hs := hset (spec, ms, tol, seed)
    exact ⟨hs.2.2.2 hnew.1, hs.1, hs.2.2.1, hs.2.1⟩

/-- The concrete solver `Solver (1, 2, 3, 4)`, after a successful `compute` and
one that raised, serializes to `(1, 2, 3, 4)`; `__setstate__` on that tuple
gives an uncomputed solver without tree. -/
theorem serialize_roundtrip_witness :
    Solver.new demo demo_mem 1 2 3 4 = .ok demo_solver ∧
      (Solver.after_computes demo demo_solver
        [⟨123, demo_x, demo_yerr⟩, ⟨5, demo_x, demo_yerr0⟩]).serialize = (1, 2, 3, 4) ∧
      (HODLRSolver.__setstate__ demo demo_computed demo_mem (1, 2, 3, 4)).2.get_computed = 0 :=
  have h := serialize_roundtrip demo demo_mem 1 2 3 4 demo_solver rfl
    [⟨123, demo_x, demo_yerr⟩, ⟨5, demo_x, demo_yerr0⟩] demo_computed demo_mem (1, 2, 3, 4)
    (MatrixXd.of_vector [1])
  ⟨rfl, h.1, h.2.2.2.2.2.1.2.2.1⟩

/-! ## Determinism of `compute` -/

/-- C8: two solvers with the same kernel, `min_size_`, `tol_` and `seed_`, in
whatever state earlier calls left them, and two arbitrary draws `r1`, `r2`
from `std::random_device`: `compute (x, yerr)` has the same outcome on both,
and when it succeeds both are computed with the same size, log-determinant,
stored coordinates and tree, the tree being the result of `Node::compute` on
the root built from the squared noise, the kernel with the coordinates of `x`,
the range `[0, n)`, `min_size_`, `tol_` and the generator seeded with `seed_`;
so `apply_inverse`, `dot_solve` and `get_inverse` return the same on both. -/
theorem compute_deterministic [Zero R] [One R] [Add R] [Mul R]
    (env : Externals Spec K N R) (s1 s2 : Solver Spec K N R) (m1 m2 : SolverMatrix K R)
    (r1 r2 : Nat) (x : array_2d R) (yerr : array_1d R)
    (hm1 : s1.matrix_ = some m1) (hm2 : s2.matrix_ = some m2)
    (hk : m1.kernel_ = m2.kernel_) (hms : s1.min_size_ = s2.min_size_)
    (htol : s1.tol_ = s2.tol_) (hseed : s1.seed_ = s2.seed_) :
    (s1.compute env r1 x yerr).1 = (s2.compute env r2 x yerr).1 ∧
      ((s1.compute env r1 x yerr).1 = .ok 0 →
        (s1.compute env r1 x yerr).2.get_computed = 1 ∧
        (s2.compute env r2 x yerr).2.get_computed = 1 ∧
        (s1.compute env r1 x yerr).2.size = (s2.compute env r2 x yerr).2.size ∧
        (s1.compute env r1 x yerr).2.log_determinant =
          (s2.compute env r2 x yerr).2.log_determinant ∧
        (s1.compute env r1 x yerr).2.matrix_ = (s2.compute env r2 x yerr).2.matrix_ ∧
        (s1.compute env r1 x yerr).2.solver_ = (s2.compute env r2 x yerr).2.solver_ ∧
        (s1.compute env r1 x yerr).2.solver_ =
          some (env.Node_compute (env.Node_new
            { diag := Solver.extract_diag x.shape0 yerr
              matrix := { kernel_ := m1.kernel_, t_ := Solver.extract_coordinates x }
              start := 0
              size := x.shape0
              min_size := s1.min_size_
              tol := s1.tol_
              random := { seeded_with := (s1.seed_ % 2 ^ 32).toNat } })).2 ∧
        (∀ (X : MatrixXd R) (in_place : Bool),
          HODLRSolver.apply_inverse env (s1.compute env r1 x yerr).2 X in_place =
            HODLRSolver.apply_inverse env (s2.compute env r2 x yerr).2 X in_place) ∧
        (∀ v : List R,
          HODLRSolver.dot_solve env (s1.compute env r1 x yerr).2 v =
            HODLRSolver.dot_solve env (s2.compute env r2 x yerr).2 v) ∧
        HODLRSolver.get_inverse env (s1.compute env r1 x yerr).2 =
          HODLRSolver.get_inverse env (s2.compute env r2 x yerr).2) := by
  by_cases hx : x.shape1 = env.get_ndim m1.kernel_
  · have hx2 : x.shape1 = env.get_ndim m2.kernel_ := by rw [← hk]; exact hx
    rw [compute_accepted env s1 m1 r1 x yerr hm1 hx, compute_accepted env s2 m2 r2 x yerr hm2 hx2,
      ← hk, ← hms, ← htol, ← hseed]
    cases hn : env.Node_compute (env.Node_new
        { diag := Solver.extract_diag x.shape0 yerr
          matrix := { kernel_ := m1.kernel_, t_ := Solver.extract_coordinates x }
          start := 0
          size := x.shape0
          min_size := s1.min_size_
          tol := s1.tol_
          random := { seeded_with := (s1.seed_ % 2 ^ 32).toNat } }) with
    | mk out node1 =>
      cases out with
      | error e =>
        refine ⟨rfl, ?_⟩
        intro hok
        cases hok
      | ok u =>
        refine ⟨rfl, fun _ => ⟨rfl, rfl, rfl, rfl, rfl, rfl, rfl, ?_, ?_, ?_⟩⟩
        · intro X in_place
          rw [binding_apply_inverse_eq, binding_apply_inverse_eq]
          rfl
        · intro v
          rw [dot_solve_eq, dot_solve_eq]
          rfl
        · rfl
  · have hx2 : x.shape1 ≠ env.get_ndim m2.kernel_ := by rw [← hk]; exact hx
    rw [compute_dimension_mismatch env s1 m1 r1 x yerr hm1 hx,
      compute_dimension_mismatch env s2 m2 r2 x yerr hm2 hx2]
    refine ⟨rfl, ?_⟩
    intro hok
    cases hok

/-- The fresh concrete solver with draw 1 and the already computed one with
draw 2 end with the same tree and log-determinant after `compute` on the
same data. -/
theorem compute_deterministic_witness :
    (demo_solver.compute demo 1 demo_x demo_yerr).1 = .ok 0 ∧
      (demo_solver.compute demo 1 demo_x demo_yerr).2.solver_ =
        (demo_computed.compute demo 2 demo_x demo_yerr).2.solver_ ∧
      (demo_solver.compute demo 1 demo_x demo_yerr).2.log_determinant =
        (demo_computed.compute demo 2 demo_x demo_yerr).2.log_determinant :=
  have h := compute_deterministic demo demo_solver demo_computed (SolverMatrix.new 1)
    { kernel_ := 1, t_ := Solver.extract_coordinates demo_x } 1 2 demo_x demo_yerr
    rfl rfl rfl rfl rfl rfl
  ⟨rfl, (h.2 rfl).2.2.2.2.2.1, (h.2 rfl).2.2.2.1⟩

/-- C10 (counterexample): `compute` on three points with the noise
`2, NaN, -3` succeeds and hands the root node the diagonal `4, NaN, 9`; the
entry NaN is not non-negative, so not every diagonal entry is. -/
theorem compute_diag_nan :
    (demo_double_solver.compute demo_double 7 demo_double_x demo_yerr_nan).1 = .ok 0 ∧
      (demo_double_solver.compute demo_double 7 demo_double_x demo_yerr_nan).2.solver_ =
        some ({ diag := [.num 4, .nan, .num 9]
                matrix := { kernel_ := 1, t_ := Solver.extract_coordinates demo_double_x }
                start := 0
                size := 3
                min_size := 2
                tol := .num 3
                random := { seeded_with := 4 } }, true) ∧
      Solver.extract_diag 3 demo_yerr_nan = [.num 4, .nan, .num 9] ∧
      ¬ ((0 : double Int) ≤ double.nan) ∧
      ¬ ∀ d ∈ Solver.extract_diag 3 demo_yerr_nan, (0 : double Int) ≤ d := by
  refine ⟨rfl, rfl, rfl, double_nan_not_nonneg, ?_⟩
  intro h
  exact double_nan_not_nonneg (h double.nan (by decide))

/-- C10 (amended): when `compute (x, yerr)` with `n` rows builds its root node
(the coordinates pass the dimension check), the node is constructed from a
diagonal of length `n` whose entry `i` is `yerr[i] * yerr[i]`, the index range
starting at 0 of size `n`, and the solver's `min_size_` and `tol_`. An entry
`yerr[i]` that is a number gives a non-negative diagonal entry and a NaN gives
NaN; when no `yerr[i]` with `i < n` is NaN, every diagonal entry is
non-negative, and `compute` with the negated noise has the same outcome and
leaves the same solver. -/
theorem compute_root_arguments [LinearOrderedRing R]
    (env : Externals Spec K N (double R)) (s : Solver Spec K N (double R))
    (m : SolverMatrix K (double R)) (r : Nat) (x : array_2d (double R))
    (yerr : array_1d (double R))
    (hm : s.matrix_ = some m) (hx : x.shape1 = env.get_ndim m.kernel_) :
    (s.compute env r x yerr).2.solver_ =
        some (env.Node_compute (env.Node_new
          { diag := Solver.extract_diag x.shape0 yerr
            matrix := { kernel_ := m.kernel_, t_ := Solver.extract_coordinates x }
            start := 0
            size := x.shape0
            min_size := s.min_size_
            tol := s.tol_
            random := { seeded_with := (s.seed_ % 2 ^ 32).toNat } })).2 ∧
      (Solver.extract_diag x.shape0 yerr).length = x.shape0 ∧
      (∀ i, i < x.shape0 →
        (Solver.extract_diag x.shape0 yerr)[i]? = some (yerr.coeff i * yerr.coeff i)) ∧
      (∀ i a, i < x.shape0 → yerr.coeff i = double.num a →
        (Solver.extract_diag x.shape0 yerr)[i]? = some (double.num (a * a)) ∧
        (0 : double R) ≤ double.num (a * a)) ∧
      (∀ i, i < x.shape0 → yerr.coeff i = double.nan →
        (Solver.extract_diag x.shape0 yerr)[i]? = some double.nan) ∧
      ((∀ i, i < x.shape0 → yerr.coeff i ≠ double.nan) →
        (∀ d ∈ Solver.extract_diag x.shape0 yerr, (0 : double R) ≤ d) ∧
        Solver.extract_diag x.shape0 yerr.neg = Solver.extract_diag x.shape0 yerr ∧
        s.compute env r x yerr.neg = s.compute env r x yerr) := by
  refine ⟨?_, extract_diag_length _ _, fun i hi => extract_diag_entry _ _ i hi, ?_, ?_, ?_⟩
  · rw [compute_accepted env s m r x yerr hm hx]
    split <;> rename_i h <;> rw [h]
  · intro i a hi ha
    refine ⟨?_, double_mul_self_nonneg a⟩
    rw [extract_diag_entry _ _ i hi, ha]
    rfl
  · intro i hi ha
    rw [extract_diag_entry _ _ i hi, ha]
    rfl
  · intro hnan
    refine ⟨fun d hd => extract_diag_double_nonneg _ _ hnan d hd,
      extract_diag_double_neg _ _, ?_⟩
    rw [compute_accepted env s m r x yerr hm hx,
      compute_accepted env s m r x yerr.neg hm hx, extract_diag_double_neg]

/-- On the concrete solver with three points: the noise `2, 1, -3` gives the
root node the diagonal `4, 1, 9`, the range `[0, 3)`, `min_size` 2 and `tol` 3,
every entry is non-negative, and the negated noise `-2, -1, 3` gives the same
result. -/
theorem compute_root_arguments_witness :
    (demo_double_solver.compute demo_double 7 demo_double_x demo_yerr_num).2.solver_ =
        some ({ diag := [.num 4, .num 1, .num 9]
                matrix := { kernel_ := 1, t_ := Solver.extract_coordinates demo_double_x }
                start := 0
                size := 3
                min_size := 2
                tol := .num 3
                random := { seeded_with := 4 } }, true) ∧
      (∀ d ∈ Solver.extract_diag 3 demo_yerr_num, (0 : double Int) ≤ d) ∧
      demo_double_solver.compute demo_double 7 demo_double_x demo_yerr_num.neg =
        demo_double_solver.compute demo_double 7 demo_double_x demo_yerr_num :=
  have h := compute_root_arguments demo_double demo_double_solver (SolverMatrix.new 1) 7
    demo_double_x demo_yerr_num rfl rfl
  have hnum : ∀ i, i < 3 → demo_yerr_num.coeff i ≠ double.nan := by
    intro i hi
    interval_cases i <;> decide
  ⟨rfl, (h.2.2.2.2.2 hnum).1, (h.2.2.2.2.2 hnum).2.2⟩

end Claims

end George
